import Mathlib

/-!
Verification of the solar-challenge dashboard data pipeline
(`notebooks/app/utils.py`) against its specification.

Modelling conventions:
* a pandas `DataFrame` of raw CSV rows is `RawTable`: the list of column
  names present in the frame plus the list of rows;
* numeric metric cells (`float`, possibly `NaN`) are `Option ℚ` — `none`
  stands for a missing value (`NaN`);
* a `pd.Timestamp` built from (year, month, day) is encoded as the integer
  `year * 10000 + month * 100 + day`, which is order-isomorphic to
  chronological order on valid calendar dates.  `pd.to_datetime` fails on
  an invalid calendar date (`ValueError`) and on a valid calendar date
  whose midnight lies outside the nanosecond `pd.Timestamp` range
  1677-09-22 .. 2262-04-11 (`OutOfBoundsDatetime`); the model reproduces
  both failure modes;
* pandas sorts (`sort_index`, `sort_values`) are modelled with a stable
  sort kernel on the sort key (pandas' default `kind='quicksort'` does not
  document a tie order; the stable order is the idealization used here);
  for `sort_values(ascending=False)`, pandas `nargsort` reverses the
  non-missing values and their indices before the ascending argsort and
  reverses the resulting indexer after it, so with a stable kernel the two
  reversals cancel on blocks of equal values: descending sorts also keep
  ties in their original order, which the model reproduces.
-/

set_option maxRecDepth 2000

namespace Solar

/-- One raw CSV row (after the loader tagged it with a country).  Fields are
the columns the pipeline reads: `YEAR`, `MO`, `DY`, the two metrics `T2M`
and `WS10M_MIN`, and `Country`. -/
structure RawRow where
  year : Int
  mo : Int
  dy : Int
  t2m : Option ℚ
  ws10m_min : Option ℚ
  country : String
deriving DecidableEq, Repr

/-- A raw dataframe: the set (list, in frame order) of column names present,
and the rows. -/
structure RawTable where
  cols : List String
  rows : List RawRow
deriving DecidableEq, Repr

/-- A record of the preprocessed dataset: the raw fields plus the derived
`Timestamp` index `ts`. -/
structure Row where
  ts : Int
  year : Int
  mo : Int
  dy : Int
  t2m : Option ℚ
  ws10m_min : Option ℚ
  country : String
deriving DecidableEq, Repr

/-- `required_cols` of `preprocess_data` (utils.py line 151). -/
def requiredCols : List String :=
  ["YEAR", "MO", "DY", "T2M", "WS10M_MIN", "Country"]

/-- `missing_cols` of `preprocess_data` (utils.py line 152). -/
def missingCols (t : RawTable) : List String :=
  requiredCols.filter (fun c => !(t.cols.contains c))

/-- Gregorian leap year rule, as used by `pd.to_datetime`. -/
def isLeapYear (y : Int) : Bool :=
  (y % 4 == 0 && y % 100 != 0) || y % 400 == 0

/-- Number of days of month `m` of year `y`. -/
def daysInMonth (y m : Int) : Int :=
  if m == 2 then (if isLeapYear y then 29 else 28)
  else if m == 4 || m == 6 || m == 9 || m == 11 then 30
  else 31

/-- Whether (y, m, d) is a valid calendar date; `pd.to_datetime` raises a
`ValueError` on rows violating this (utils.py lines 157-161). -/
def isValidDate (y m d : Int) : Bool :=
  1 ≤ m && m ≤ 12 && 1 ≤ d && d ≤ daysInMonth y m

/-- Whether midnight of the calendar date (y, m, d) is representable as a
nanosecond `pd.Timestamp`: `Timestamp.min` is 1677-09-21T00:12:43.145...,
`Timestamp.max` is 2262-04-11T23:47:16.854..., so representable midnights
run from 1677-09-22 to 2262-04-11; `pd.to_datetime` raises
`OutOfBoundsDatetime` outside this range.  (The integer encoding compares
like the calendar order on valid dates.) -/
def inTsBounds (y m d : Int) : Bool :=
  16770922 ≤ y * 10000 + m * 100 + d && y * 10000 + m * 100 + d ≤ 22620411

/-- The combined per-row success condition of `pd.to_datetime`: a valid
calendar date whose midnight fits the `Timestamp` range. -/
def dateOk (y m d : Int) : Bool :=
  isValidDate y m d && inTsBounds y m d

/-- The timestamp key derived from a raw row: an integer encoding of
(year, month, day) that is monotone in chronological order. -/
def tsOf (r : RawRow) : Int :=
  r.year * 10000 + r.mo * 100 + r.dy

/-- Attach the derived timestamp to a raw row (`df_processed["Timestamp"] =
pd.to_datetime(...)` followed by `set_index`, utils.py lines 157-164). -/
def stamp (r : RawRow) : Row :=
  ⟨tsOf r, r.year, r.mo, r.dy, r.t2m, r.ws10m_min, r.country⟩

/-- Comparison of list elements by a sort key. -/
def keyLe {α κ : Type} [LinearOrder κ] (key : α → κ) (a b : α) : Prop :=
  key a ≤ key b

instance {α κ : Type} [LinearOrder κ] (key : α → κ) : DecidableRel (keyLe key) :=
  fun a b => inferInstanceAs (Decidable (key a ≤ key b))

instance {α κ : Type} [LinearOrder κ] (key : α → κ) : IsTotal α (keyLe key) :=
  ⟨fun a b => le_total (key a) (key b)⟩

instance {α κ : Type} [LinearOrder κ] (key : α → κ) : IsTrans α (keyLe key) :=
  ⟨fun _ _ _ h h' => le_trans h h'⟩

/-- Stable sort by a key, in ascending key order. -/
def sortByKey {α κ : Type} [LinearOrder κ] (key : α → κ) (l : List α) : List α :=
  List.insertionSort (keyLe key) l

/-- Forward fill of a metric column: a missing cell takes the value of the
accumulator, which holds the last non-missing cell seen so far.  Models
`Series.ffill`. -/
def ffillGo (acc : Option ℚ) : List (Option ℚ) → List (Option ℚ)
  | [] => []
  | none :: xs => acc :: ffillGo acc xs
  | some v :: xs => some v :: ffillGo (some v) xs

/-- `Series.ffill()`. -/
def ffill (l : List (Option ℚ)) : List (Option ℚ) :=
  ffillGo none l

/-- `Series.bfill()`: forward fill of the reversed sequence. -/
def bfill (l : List (Option ℚ)) : List (Option ℚ) :=
  (ffillGo none l.reverse).reverse

/-- `s.ffill().bfill()` (utils.py lines 170-171). -/
def fillCol (l : List (Option ℚ)) : List (Option ℚ) :=
  bfill (ffill l)

/-- Column assignment `df["T2M"] = c`: replace the `T2M` cell of each row by
the corresponding entry of `c`. -/
def setT2mCol (l : List Row) (c : List (Option ℚ)) : List Row :=
  l.zipWith (fun r v => { r with t2m := v }) c

/-- Column assignment `df["WS10M_MIN"] = c`. -/
def setWsCol (l : List Row) (c : List (Option ℚ)) : List Row :=
  l.zipWith (fun r v => { r with ws10m_min := v }) c

/-- The rows with the derived `Timestamp` index attached. -/
def stampedRows (t : RawTable) : List Row :=
  t.rows.map stamp

/-- `df_processed.sort_index()` (utils.py line 167): sort by the timestamp. -/
def sortedRows (t : RawTable) : List Row :=
  sortByKey (fun r => r.ts) (stampedRows t)

/-- The gap-filling step of `preprocess_data` (utils.py lines 170-171):
first `T2M` is forward/backward filled over the whole sorted sequence, then
`WS10M_MIN` is, reading the column from the frame after the first
assignment. -/
def filledRows (t : RawTable) : List Row :=
  let s := sortedRows t
  let s1 := setT2mCol s (fillCol (s.map (fun r => r.t2m)))
  setWsCol s1 (fillCol (s1.map (fun r => r.ws10m_min)))

/-- Errors raised by `preprocess_data` (the spec calls them `SchemaError`):
a `ValueError` listing missing columns, or a failure of `pd.to_datetime` —
`ValueError` on an invalid calendar date as well as `OutOfBoundsDatetime`
on a date outside the `Timestamp` range, neither of which the code
catches. -/
inductive SchemaErr where
  | missingColumns (cols : List String)
  | invalidDate
deriving DecidableEq, Repr

/-- `preprocess_data` (utils.py lines 133-173): validate required columns,
derive the timestamp (failing on invalid calendar dates and on dates the
`Timestamp` type cannot represent), sort by it, and forward/backward fill
the two metric columns. -/
def preprocess_data (t : RawTable) : Except SchemaErr (List Row) :=
  if missingCols t ≠ [] then .error (.missingColumns (missingCols t))
  else if t.rows.any (fun r => !(dateOk r.year r.mo r.dy)) then .error .invalidDate
  else .ok (filledRows t)

/-- `filter_data` (utils.py lines 176-207): keep rows whose country is in
`countries`, then keep rows whose timestamp lies in the inclusive range. -/
def filter_data (df : List Row) (countries : List String) (startD endD : Int) :
    List Row :=
  (df.filter (fun r => countries.contains r.country)).filter
    (fun r => decide (startD ≤ r.ts) && decide (r.ts ≤ endD))

/-! ### Record loader and dataset merger -/

/-- What the environment (filesystem / remote source) holds for a country
id: no file at all, a file whose read raises, or a readable table. -/
inductive CsvSource where
  | absent
  | corrupt
  | table (t : RawTable)

/-- Errors of `load_country_data`: `FileNotFoundError`, or any other
exception raised while reading (e.g. a parse error in `pd.read_csv`). -/
inductive LoadErr where
  | notFound
  | readFailed
deriving DecidableEq, Repr

/-- Python `s.replace(a, b)` for single-character `a` and `b`: replace every
occurrence. -/
def pyReplaceChar (s : String) (a b : Char) : String :=
  ⟨s.data.map (fun ch => if ch = a then b else ch)⟩

/-- One step of Python `str.title()`: an alphabetic character is upper-cased
when the previous character was not alphabetic, lower-cased otherwise. -/
def pyTitleGo : Bool → List Char → List Char
  | _, [] => []
  | prevAlpha, ch :: rest =>
    (if ch.isAlpha then (if prevAlpha then ch.toLower else ch.toUpper) else ch)
      :: pyTitleGo ch.isAlpha rest

/-- Python `str.title()`. -/
def pyTitle (s : String) : String :=
  ⟨pyTitleGo false s.data⟩

/-- `country_name.replace("_", " ").title()` (utils.py line 70). -/
def displayName (c : String) : String :=
  pyTitle (pyReplaceChar c ('_') (' '))

/-- `df["Country"] = ...` on the loaded frame: every row's country cell is
set; the column is appended to the frame if not already present. -/
def tagCountry (c : String) (t : RawTable) : RawTable :=
  ⟨if t.cols.contains ("Country") then t.cols else t.cols ++ [("Country")],
   t.rows.map (fun r => { r with country := displayName c })⟩

/-- `load_country_data` (utils.py lines 29-72): raise `FileNotFoundError` if
the file is absent, propagate read failures, otherwise read the table and
set its `Country` column to the display form of the country id. -/
def load_country_data (env : String → CsvSource) (country : String) :
    Except LoadErr RawTable :=
  match env country with
  | .absent => .error .notFound
  | .corrupt => .error .readFailed
  | .table t => .ok (tagCountry country t)

/-- Error of `load_all_countries` when no country loads (`ValueError` in
source; `EmptyDatasetError` in the spec). -/
inductive MergeErr where
  | emptyDataset
deriving DecidableEq, Repr

/-- Deduplicate, keeping the first occurrence of each element. -/
def dedupFirst (l : List String) : List String :=
  l.foldl (fun acc c => if acc.contains c then acc else acc ++ [c]) []

/-- `pd.concat(dataframes, ignore_index=True)`: rows concatenated in order;
columns are the union in order of first appearance. -/
def concatTables (ts : List RawTable) : RawTable :=
  ⟨dedupFirst (ts.map (fun t => t.cols)).flatten, (ts.map (fun t => t.rows)).flatten⟩

/-- Hyphen-to-underscore normalization of a country id
(utils.py line 100). -/
def normalizeId (c : String) : String :=
  pyReplaceChar c ('-') ('_')

/-- The `dataframes` list built by the loop of `load_all_countries`
(utils.py lines 110-120): the successfully loaded tables, in the given
country order; a country whose load raises (for any reason) is skipped. -/
def loadedTables (env : String → CsvSource) (countries0 : List String) :
    List RawTable :=
  (countries0.map normalizeId).filterMap (fun c => (load_country_data env c).toOption)

/-- `load_all_countries` (utils.py lines 76-130): normalize ids, load each
country skipping any whose load raises (any exception), and concatenate;
raise if no country loaded. -/
def load_all_countries (env : String → CsvSource) (countries0 : List String) :
    Except MergeErr RawTable :=
  if (loadedTables env countries0).isEmpty then .error .emptyDataset
  else .ok (concatTables (loadedTables env countries0))

/-! ### Aggregator -/

/-- The tracked metrics. -/
inductive Metric where
  | t2m
  | ws10m_min
deriving DecidableEq, Repr

/-- The metric cell of a row. -/
def mval : Metric → Row → Option ℚ
  | .t2m, r => r.t2m
  | .ws10m_min, r => r.ws10m_min

/-- Round-half-to-even to 2 decimal places (`DataFrame.round(2)`, which
rounds as IEEE floats do: ties to even). -/
def round2 (q : ℚ) : ℚ :=
  let n : Int := ⌊q * 100⌋
  let r : ℚ := q * 100 - n
  if r < 1 / 2 then (n : ℚ) / 100
  else if 1 / 2 < r then ((n : ℚ) + 1) / 100
  else (if n % 2 = 0 then (n : ℚ) else (n : ℚ) + 1) / 100

/-- Newton iteration for the integer square root of `n`, with explicit fuel
(the iteration stabilizes long before the fuel runs out). -/
def isqrtGo (n : ℕ) : ℕ → ℕ → ℕ
  | 0, guess => guess
  | fuel + 1, guess =>
    let next := (guess + n / guess) / 2
    if next < guess then isqrtGo n fuel next else guess

/-- `⌊√n⌋` on naturals, by Newton's method. -/
def isqrt (n : ℕ) : ℕ :=
  if n ≤ 1 then n else isqrtGo n n (n / 2)

/-- `round(sqrt v, 2)` with ties to even, computed exactly on the rational
`v ≥ 0`: `f = ⌊100·√v⌋` via integer square root, then the fractional part
of `100·√v` is compared with 1/2 by comparing `(2f+1)²·den` with
`40000·num`. -/
def roundSqrt2 (v : ℚ) : ℚ :=
  let f : ℕ := isqrt (10000 * (v.num.toNat * v.den)) / v.den
  let t : ℕ := 2 * f + 1
  if t * t * v.den = 40000 * v.num.toNat then
    (if f % 2 = 0 then (f : ℚ) else (f : ℚ) + 1) / 100
  else if t * t * v.den < 40000 * v.num.toNat then ((f : ℚ) + 1) / 100
  else (f : ℚ) / 100

/-- Mean of a list of values (`NaN`, i.e. `none`, when empty). -/
def meanQ (l : List ℚ) : Option ℚ :=
  if l.length = 0 then none else some (l.sum / l.length)

/-- Median with linear interpolation at even length, as numpy computes it:
sort, take the middle element (odd length) or the average of the two middle
elements (even length). -/
def medianQ (l : List ℚ) : Option ℚ :=
  let s := sortByKey id l
  let n := s.length
  if n = 0 then none
  else if n % 2 = 1 then some (s.getD (n / 2) 0)
  else some ((s.getD (n / 2 - 1) 0 + s.getD (n / 2) 0) / 2)

/-- Minimum of a list of values (`none` when empty). -/
def minQ : List ℚ → Option ℚ
  | [] => none
  | v :: vs => some (vs.foldl min v)

/-- Maximum of a list of values (`none` when empty). -/
def maxQ : List ℚ → Option ℚ
  | [] => none
  | v :: vs => some (vs.foldl max v)

/-- Sample variance (denominator N-1), `none` when fewer than two values —
pandas `std` returns `NaN` there. -/
def sampleVar (l : List ℚ) : Option ℚ :=
  if l.length < 2 then none
  else some (((l.map (fun x => (x - l.sum / l.length) ^ 2)).sum) / ((l.length : ℚ) - 1))

/-- One row of the summary table: the aggregates of `.agg([...]).round(2)`
(utils.py lines 259-271).  `none` models a `NaN` aggregate. -/
structure SummaryRow where
  mean : Option ℚ
  median : Option ℚ
  minVal : Option ℚ
  maxVal : Option ℚ
  std : Option ℚ
deriving DecidableEq, Repr

/-- The aggregates of one group, over its non-missing metric values. -/
def statsOfVals (vals : List ℚ) : SummaryRow :=
  ⟨(meanQ vals).map round2, (medianQ vals).map round2, (minQ vals).map round2,
   (maxQ vals).map round2, (sampleVar vals).map roundSqrt2⟩

/-- The non-missing metric values of the rows of one country, in row order
(pandas aggregation skips `NaN`). -/
def groupVals (df : List Row) (m : Metric) (c : String) : List ℚ :=
  (df.filter (fun r => r.country == c)).filterMap (mval m)

/-- `calculate_summary_stats` (utils.py lines 243-273): group by country
(`groupby` sorts the group keys), aggregate the metric per group, round. -/
def calculate_summary_stats (df : List Row) (m : Metric) :
    List (String × SummaryRow) :=
  (sortByKey id (dedupFirst (df.map (fun r => r.country)))).map
    (fun c => (c, statsOfVals (groupVals df m c)))

/-- The projection returned by `get_top_n_records` (columns `Date`,
`Country`, metric; utils.py lines 305-306). -/
structure TopRecord where
  date : Int
  country : String
  value : Option ℚ
deriving DecidableEq, Repr

/-- The sort key of `sort_values`: the metric value of a row (rows with a
missing value are handled separately, so the default is never compared). -/
def valOf (m : Metric) (r : Row) : ℚ :=
  (mval m r).getD 0

/-- `df.sort_values(by=metric, ascending=ascending)` (utils.py line 299) as
pandas `nargsort` computes it: the rows with a present metric value are
argsorted ascending by value; for `ascending=False`, `nargsort` reverses
those rows (and their indices) *before* the ascending argsort and reverses
the resulting indexer *after* it, so the descending order is
`reverse (sortAscending (reverse nonNan))` — with a stable kernel the two
reversals cancel on blocks of equal values and ties keep their original
order.  Rows with a missing value are appended in their original order
(`na_position="last"`). -/
def sortValues (df : List Row) (m : Metric) (ascending : Bool) : List Row :=
  let nonNan := df.filter (fun r => (mval m r).isSome)
  let nans := df.filter (fun r => (mval m r).isNone)
  let sorted :=
    if ascending then sortByKey (valOf m) nonNan
    else (sortByKey (valOf m) nonNan.reverse).reverse
  sorted ++ nans

/-- `df.head(n)`, i.e. Python slicing `df[:n]`: the first `n` rows for
`n ≥ 0`, everything but the last `|n|` rows for `n < 0`. -/
def pyHead (l : List Row) (n : Int) : List Row :=
  if 0 ≤ n then l.take n.toNat else l.take (l.length - (-n).toNat)

/-- `get_top_n_records` (utils.py lines 276-308). -/
def get_top_n_records (df : List Row) (m : Metric) (n : Int) (ascending : Bool) :
    List TopRecord :=
  (pyHead (sortValues df m ascending) n).map (fun r => ⟨r.ts, r.country, mval m r⟩)

/-! ### Heap model for the mutation claim

The pure functions above cannot express "does not mutate its argument", so
the two operations that the spec's lifecycle sentence is about are also
given in a store-passing form, translated statement by statement from the
source: `df.copy()` and frame-producing operations allocate new cells,
column assignments (`df[...] = ...`) write the cell of the frame they are
applied to in place. -/

/-- A heap cell: a raw frame, a raw frame after the in-place `Timestamp`
column assignment, or a datetime-indexed frame. -/
inductive Cell where
  | rawC (t : RawTable)
  | rawTsC (t : RawTable) (tsCol : List Int)
  | procC (d : List Row)
deriving DecidableEq, Repr

/-- `preprocess_data` in store-passing form.  Statement by statement:
copy the input (new cell `a`), validate columns, compute the timestamps
(raising on an invalid date) and assign them in place to cell `a`, then
`set_index` and `sort_index` each allocate a new frame, and the two fill
assignments write the sorted frame's cell in place.  Only raw frames are
preprocessed; other cell kinds are rejected. -/
def preprocessH (h : List Cell) (i : Nat) : Except SchemaErr (List Cell × Nat) :=
  match h.getD i (.rawC ⟨[], []⟩) with
  | .rawC t =>
    let h1 := h ++ [Cell.rawC t]
    let a := h.length
    if missingCols t ≠ [] then .error (.missingColumns (missingCols t))
    else if t.rows.any (fun r => !(dateOk r.year r.mo r.dy)) then .error .invalidDate
    else
      let h2 := h1.set a (.rawTsC t (t.rows.map tsOf))
      let h3 := h2 ++ [Cell.procC (stampedRows t)]
      let h4 := h3 ++ [Cell.procC (sortedRows t)]
      let c := h3.length
      let s := sortedRows t
      let s1 := setT2mCol s (fillCol (s.map (fun r => r.t2m)))
      let h5 := h4.set c (.procC s1)
      let h6 := h5.set c (.procC (setWsCol s1 (fillCol (s1.map (fun r => r.ws10m_min)))))
      .ok (h6, c)
  | _ => .error .invalidDate

/-- `filter_data` in store-passing form: `df[mask].copy()` allocates a new
cell, the range filter allocates another; the input cell is never written. -/
def filterH (h : List Cell) (i : Nat) (countries : List String) (s e : Int) :
    List Cell × Nat :=
  match h.getD i (.rawC ⟨[], []⟩) with
  | .procC d =>
    let f1 := d.filter (fun r => countries.contains r.country)
    let h1 := h ++ [Cell.procC f1]
    let f2 := f1.filter (fun r => decide (s ≤ r.ts) && decide (r.ts ≤ e))
    (h1 ++ [Cell.procC f2], h1.length)
  | _ => (h, i)

/-! ### Specification-side formulations and concrete instances -/

/-- The spec's description of the gap-fill value at position `i`: the nearest
non-missing value at or before `i` in the sequence, and if there is none, the
nearest non-missing value after `i`. -/
def fillAt (l : List (Option ℚ)) (i : Nat) : Option ℚ :=
  ((l.take (i + 1)).reverse.findSome? id).or ((l.drop (i + 1)).findSome? id)

/-- The identity of a dataset record without its (fill-mutable) metric
cells, used to state sort stability. -/
def stripRow (r : Row) : Int × Int × Int × Int × String :=
  (r.ts, r.year, r.mo, r.dy, r.country)

/-- The full required column list, used by the concrete test tables. -/
def allCols : List String := ["YEAR", "MO", "DY", "T2M", "WS10M_MIN", "Country"]

/-- A one-row table dated 2021-02-29 — not a valid date (2021 is no leap
year). -/
def tblFeb2021 : RawTable :=
  ⟨allCols, [⟨2021, 2, 29, some 1, some 1, ("Benin")⟩]⟩

/-- A one-row table dated 2020-02-29 — a valid date (2020 is a leap year). -/
def tblFeb2020 : RawTable :=
  ⟨allCols, [⟨2020, 2, 29, some 1, some 1, ("Benin")⟩]⟩

/-- A table whose frame lacks the `T2M` and `Country` columns. -/
def tblMissing : RawTable :=
  ⟨["YEAR", "MO", "DY", "WS10M_MIN"], [⟨2020, 1, 1, none, some 1, ("")⟩]⟩

/-- A one-row table dated 3000-01-01 — a valid calendar date that lies
outside the nanosecond `pd.Timestamp` range. -/
def tblYear3000 : RawTable :=
  ⟨allCols, [⟨3000, 1, 1, some 1, some 1, ("Benin")⟩]⟩

/-- A small valid three-row table (unsorted, with gaps) for witnesses. -/
def tblSmall : RawTable :=
  ⟨allCols,
   [⟨2020, 1, 3, none, some 7, ("Benin")⟩,
    ⟨2020, 1, 1, some 4, none, ("Togo")⟩,
    ⟨2020, 1, 2, some 5, some 6, ("Benin")⟩]⟩

/-- A six-row table, already in date order, whose `T2M` column is the
spec's fill example `[null, null, 5, null, 8, null]`. -/
def tblSix : RawTable :=
  ⟨allCols,
   [⟨2020, 1, 1, none, some 1, ("Benin")⟩,
    ⟨2020, 1, 2, none, some 1, ("Benin")⟩,
    ⟨2020, 1, 3, some 5, some 1, ("Benin")⟩,
    ⟨2020, 1, 4, none, some 1, ("Benin")⟩,
    ⟨2020, 1, 5, some 8, some 1, ("Benin")⟩,
    ⟨2020, 1, 6, none, some 1, ("Benin")⟩]⟩

/-- Two dataset rows with equal `T2M` values, to exhibit tie handling of
`get_top_n_records`. -/
def tieRowA : Row := ⟨1, 2020, 1, 1, some 1, none, ("A")⟩

/-- Second row of the tie example (later in the dataset, same value). -/
def tieRowB : Row := ⟨2, 2020, 1, 2, some 1, none, ("B")⟩

/-- An environment with data present for benin and togo only. -/
def envTwoOfThree : String → CsvSource :=
  fun c =>
    if c = ("benin") then .table ⟨allCols, [⟨2020, 1, 1, some 1, some 1, ("x")⟩]⟩
    else if c = ("togo") then .table ⟨allCols, [⟨2020, 1, 2, some 2, some 2, ("y")⟩]⟩
    else .absent

/-- An environment with no data at all. -/
def envEmpty : String → CsvSource := fun _ => .absent

end Solar

deriving instance DecidableEq for Except

namespace Solar

/-! ### Properties of the fill step -/

theorem ffillGo_length (acc : Option ℚ) (l : List (Option ℚ)) :
    (ffillGo acc l).length = l.length := by
  induction l generalizing acc with
  | nil => rfl
  | cons x xs ih => cases x <;> simp [ffillGo, ih]

theorem ffill_length (l : List (Option ℚ)) : (ffill l).length = l.length :=
  ffillGo_length _ _

theorem bfill_length (l : List (Option ℚ)) : (bfill l).length = l.length := by
  simp [bfill, ffillGo_length]

theorem fillCol_length (l : List (Option ℚ)) : (fillCol l).length = l.length := by
  simp [fillCol, bfill_length, ffill_length]

theorem ffillGo_getElem? (l : List (Option ℚ)) (acc : Option ℚ) (i : Nat)
    (h : i < l.length) :
    (ffillGo acc l)[i]? = some (((l.take (i + 1)).reverse.findSome? id).or acc) := by
  induction l generalizing acc i with
  | nil => simp at h
  | cons x xs ih =>
    cases i with
    | zero => cases x <;> simp [ffillGo, List.findSome?]
    | succ i =>
      have h' : i < xs.length := by simpa using h
      cases x with
      | none =>
        show (acc :: ffillGo acc xs)[i + 1]? = _
        rw [List.getElem?_cons_succ, ih _ _ h']
        simp [List.take_succ_cons, List.findSome?_append, List.findSome?]
      | some v =>
        show (some v :: ffillGo (some v) xs)[i + 1]? = _
        rw [List.getElem?_cons_succ, ih _ _ h']
        simp [List.take_succ_cons, List.findSome?_append, List.findSome?,
          Option.or_assoc]

theorem ffill_findSome? (l : List (Option ℚ)) :
    (ffillGo none l).findSome? id = l.findSome? id := by
  induction l with
  | nil => rfl
  | cons x xs ih => cases x <;> simp [ffillGo, List.findSome?, ih]

theorem ffill_drop_of_prefix_none (i : Nat) (l : List (Option ℚ))
    (h : ∀ j, j < i → l[j]? = some none) :
    (ffillGo none l).drop i = ffillGo none (l.drop i) := by
  induction i generalizing l with
  | zero => simp
  | succ i ih =>
    cases l with
    | nil => simp [ffillGo]
    | cons x xs =>
      have hx : x = none := by
        have h0 := h 0 (Nat.succ_pos _)
        simpa using h0
      subst hx
      show (none :: ffillGo none xs).drop (i + 1) = ffillGo none (xs.drop i)
      rw [List.drop_succ_cons]
      exact ih xs (fun j hj => by simpa using h (j + 1) (by omega))

theorem bfill_getElem? (l : List (Option ℚ)) (i : Nat) (h : i < l.length) :
    (bfill l)[i]? = some ((l.drop i).findSome? id) := by
  have hlen : (ffillGo none l.reverse).length = l.length := by
    rw [ffillGo_length, List.length_reverse]
  show (ffillGo none l.reverse).reverse[i]? = _
  rw [List.getElem?_reverse (by rw [hlen]; exact h), hlen]
  rw [ffillGo_getElem? _ _ _ (by rw [List.length_reverse]; omega)]
  rw [Option.or_none]
  have h1 : l.length - 1 - i + 1 = l.length - i := by omega
  rw [h1, List.take_reverse, List.reverse_reverse]
  have h2 : l.length - (l.length - i) = i := by omega
  rw [h2]

theorem fillCol_getElem? (l : List (Option ℚ)) (i : Nat) (h : i < l.length) :
    (fillCol l)[i]? = some (fillAt l i) := by
  have hf : i < (ffill l).length := by rw [ffill_length]; exact h
  show (bfill (ffill l))[i]? = _
  rw [bfill_getElem? _ _ hf]
  unfold fillAt
  cases hPv : (l.take (i + 1)).reverse.findSome? id with
  | some v =>
    have hi : (ffill l)[i]? = some (some v) := by
      show (ffillGo none l)[i]? = _
      rw [ffillGo_getElem? _ _ _ h, hPv, Option.or_none]
    have hival : (ffill l)[i] = some v := by
      have := List.getElem?_eq_getElem hf
      rw [this] at hi
      exact Option.some.inj hi
    rw [List.drop_eq_getElem_cons hf, hival]
    simp [List.findSome?]
  | none =>
    have hall : ∀ j, j < i + 1 → l[j]? = some none := by
      intro j hj
      have hmem : ∀ x ∈ (l.take (i + 1)).reverse, id x = none :=
        List.findSome?_eq_none_iff.mp hPv
      have hjl : j < l.length := by omega
      have htake : (l.take (i + 1))[j]? = l[j]? := by
        rw [List.getElem?_take]
        simp [hj]
      have hjt : j < (l.take (i + 1)).length := by
        simp [List.length_take]; omega
      have hmem' : (l.take (i + 1))[j] ∈ (l.take (i + 1)).reverse := by
        rw [List.mem_reverse]
        exact List.getElem_mem hjt
      have hx := hmem _ hmem'
      simp only [id] at hx
      rw [← htake, List.getElem?_eq_getElem hjt, hx]
    have hdrop : (ffill l).drop i = ffillGo none (l.drop i) :=
      ffill_drop_of_prefix_none i l (fun j hj => hall j (by omega))
    rw [hdrop, ffill_findSome?, Option.none_or]
    rw [List.drop_eq_getElem_cons h]
    have hli : l[i] = none := by
      have := hall i (by omega)
      rw [List.getElem?_eq_getElem h] at this
      exact Option.some.inj this
    simp [hli, List.findSome?]

/-! ### Properties of the column assignments -/

theorem setT2mCol_map_t2m (l : List Row) (c : List (Option ℚ))
    (h : c.length = l.length) :
    (setT2mCol l c).map (fun r => r.t2m) = c := by
  induction l generalizing c with
  | nil => cases c <;> simp_all [setT2mCol]
  | cons r rs ih =>
    cases c with
    | nil => simp at h
    | cons v vs =>
      simp only [setT2mCol, List.zipWith_cons_cons, List.map_cons]
      exact congrArg _ (ih vs (by simpa using h))

theorem setT2mCol_map_ws (l : List Row) (c : List (Option ℚ))
    (h : c.length = l.length) :
    (setT2mCol l c).map (fun r => r.ws10m_min) = l.map (fun r => r.ws10m_min) := by
  induction l generalizing c with
  | nil => cases c <;> simp_all [setT2mCol]
  | cons r rs ih =>
    cases c with
    | nil => simp at h
    | cons v vs =>
      simp only [setT2mCol, List.zipWith_cons_cons, List.map_cons]
      exact congrArg _ (ih vs (by simpa using h))

theorem setWsCol_map_ws (l : List Row) (c : List (Option ℚ))
    (h : c.length = l.length) :
    (setWsCol l c).map (fun r => r.ws10m_min) = c := by
  induction l generalizing c with
  | nil => cases c <;> simp_all [setWsCol]
  | cons r rs ih =>
    cases c with
    | nil => simp at h
    | cons v vs =>
      simp only [setWsCol, List.zipWith_cons_cons, List.map_cons]
      exact congrArg _ (ih vs (by simpa using h))

theorem setWsCol_map_t2m (l : List Row) (c : List (Option ℚ))
    (h : c.length = l.length) :
    (setWsCol l c).map (fun r => r.t2m) = l.map (fun r => r.t2m) := by
  induction l generalizing c with
  | nil => cases c <;> simp_all [setWsCol]
  | cons r rs ih =>
    cases c with
    | nil => simp at h
    | cons v vs =>
      simp only [setWsCol, List.zipWith_cons_cons, List.map_cons]
      exact congrArg _ (ih vs (by simpa using h))

theorem setT2mCol_map_strip (l : List Row) (c : List (Option ℚ))
    (h : c.length = l.length) :
    (setT2mCol l c).map stripRow = l.map stripRow := by
  induction l generalizing c with
  | nil => cases c <;> simp_all [setT2mCol]
  | cons r rs ih =>
    cases c with
    | nil => simp at h
    | cons v vs =>
      simp only [setT2mCol, List.zipWith_cons_cons, List.map_cons]
      exact congrArg _ (ih vs (by simpa using h))

theorem setWsCol_map_strip (l : List Row) (c : List (Option ℚ))
    (h : c.length = l.length) :
    (setWsCol l c).map stripRow = l.map stripRow := by
  induction l generalizing c with
  | nil => cases c <;> simp_all [setWsCol]
  | cons r rs ih =>
    cases c with
    | nil => simp at h
    | cons v vs =>
      simp only [setWsCol, List.zipWith_cons_cons, List.map_cons]
      exact congrArg _ (ih vs (by simpa using h))

theorem setT2mCol_length (l : List Row) (c : List (Option ℚ))
    (h : c.length = l.length) :
    (setT2mCol l c).length = l.length := by
  simp [setT2mCol, h]

theorem setWsCol_length (l : List Row) (c : List (Option ℚ))
    (h : c.length = l.length) :
    (setWsCol l c).length = l.length := by
  simp [setWsCol, h]

/-! ### Properties of the preprocessing pipeline -/

theorem filledRows_map_t2m (t : RawTable) :
    (filledRows t).map (fun r => r.t2m) =
      fillCol ((sortedRows t).map (fun r => r.t2m)) := by
  unfold filledRows
  have h1 : (fillCol ((sortedRows t).map (fun r => r.t2m))).length =
      (sortedRows t).length := by
    rw [fillCol_length, List.length_map]
  have h2 : (setT2mCol (sortedRows t) (fillCol ((sortedRows t).map (fun r => r.t2m)))).length
      = (sortedRows t).length := setT2mCol_length _ _ h1
  rw [setWsCol_map_t2m _ _ (by rw [fillCol_length, List.length_map, h2])]
  exact setT2mCol_map_t2m _ _ h1

theorem filledRows_map_ws (t : RawTable) :
    (filledRows t).map (fun r => r.ws10m_min) =
      fillCol ((sortedRows t).map (fun r => r.ws10m_min)) := by
  unfold filledRows
  have h1 : (fillCol ((sortedRows t).map (fun r => r.t2m))).length =
      (sortedRows t).length := by
    rw [fillCol_length, List.length_map]
  have h2 : (setT2mCol (sortedRows t) (fillCol ((sortedRows t).map (fun r => r.t2m)))).length
      = (sortedRows t).length := setT2mCol_length _ _ h1
  rw [setWsCol_map_ws _ _ (by rw [fillCol_length, List.length_map, h2])]
  rw [setT2mCol_map_ws _ _ h1]

theorem filledRows_map_strip (t : RawTable) :
    (filledRows t).map stripRow = (sortedRows t).map stripRow := by
  unfold filledRows
  have h1 : (fillCol ((sortedRows t).map (fun r => r.t2m))).length =
      (sortedRows t).length := by
    rw [fillCol_length, List.length_map]
  have h2 : (setT2mCol (sortedRows t) (fillCol ((sortedRows t).map (fun r => r.t2m)))).length
      = (sortedRows t).length := setT2mCol_length _ _ h1
  rw [setWsCol_map_strip _ _ (by rw [fillCol_length, List.length_map, h2])]
  exact setT2mCol_map_strip _ _ h1

theorem filledRows_length (t : RawTable) :
    (filledRows t).length = (sortedRows t).length := by
  have := filledRows_map_strip t
  have h := congrArg List.length this
  simpa using h

/-- Inversion of a successful `preprocess_data` run. -/
theorem preprocess_ok {t : RawTable} {ds : List Row}
    (h : preprocess_data t = .ok ds) :
    ds = filledRows t ∧ missingCols t = [] ∧
      (t.rows.any (fun r => !(dateOk r.year r.mo r.dy))) = false := by
  unfold preprocess_data at h
  by_cases h1 : missingCols t ≠ []
  · rw [if_pos h1] at h
    exact absurd h (by simp)
  · rw [if_neg h1] at h
    by_cases h2 : t.rows.any (fun r => !(dateOk r.year r.mo r.dy)) = true
    · rw [if_pos h2] at h
      exact absurd h (by simp)
    · rw [if_neg h2] at h
      refine ⟨by injection h with h'; exact h'.symm, by simpa using h1, by simpa using h2⟩

/-! ### Properties of the stable key sort -/

theorem sorted_sortByKey {α κ : Type} [LinearOrder κ] (key : α → κ) (l : List α) :
    List.Sorted (keyLe key) (sortByKey key l) :=
  List.sorted_insertionSort _ l

theorem perm_sortByKey {α κ : Type} [LinearOrder κ] (key : α → κ) (l : List α) :
    (sortByKey key l).Perm l :=
  List.perm_insertionSort _ l

theorem filterEq_orderedInsert {α κ : Type} [LinearOrder κ] (key : α → κ)
    (d : κ) (a : α) (l : List α) :
    (List.orderedInsert (keyLe key) a l).filter (fun x => decide (key x = d)) =
      ((a :: l).filter (fun x => decide (key x = d))) := by
  induction l with
  | nil => rfl
  | cons b bs ih =>
    by_cases hab : keyLe key a b
    · rw [List.orderedInsert, if_pos hab]
    · rw [List.orderedInsert, if_neg hab]
      have hba : key b < key a := lt_of_not_le hab
      by_cases had : key a = d
      · have hbd : ¬(key b = d) := by
          intro hbd
          exact hab (le_of_eq (had.trans hbd.symm))
        simp only [List.filter_cons, ih]
        simp [had, hbd]
      · by_cases hbd : key b = d <;> simp only [List.filter_cons, ih] <;> simp [had, hbd]

theorem filterEq_sortByKey {α κ : Type} [LinearOrder κ] (key : α → κ)
    (d : κ) (l : List α) :
    (sortByKey key l).filter (fun x => decide (key x = d)) =
      l.filter (fun x => decide (key x = d)) := by
  induction l with
  | nil => rfl
  | cons a as ih =>
    show ((List.insertionSort (keyLe key) as).orderedInsert (keyLe key) a).filter _ = _
    rw [filterEq_orderedInsert]
    simp only [List.filter_cons]
    rw [show (List.insertionSort (keyLe key) as).filter (fun x => decide (key x = d)) =
      as.filter (fun x => decide (key x = d)) from ih]

/-! ### Claim C1 — global forward/backward fill -/

/-- C1 (amended): for every table accepted by `preprocess_data`, each metric
column of the output equals, position by position, the nearest non-missing
value at or before that position of the date-sorted global (multi-country)
metric column, and if none exists, the nearest non-missing value after it;
the sequence `[null, null, 5, null, 8, null]` fills to
`[5, 5, 5, 5, 8, 8]` (position 3 takes the preceding 5). -/
theorem claim_C1_fill :
    (∀ (t : RawTable) (ds : List Row), preprocess_data t = .ok ds →
      ∀ i, i < ds.length →
        (ds.map (fun r => r.t2m))[i]? =
          some (fillAt ((sortedRows t).map (fun r => r.t2m)) i) ∧
        (ds.map (fun r => r.ws10m_min))[i]? =
          some (fillAt ((sortedRows t).map (fun r => r.ws10m_min)) i)) ∧
    fillCol [none, none, some 5, none, some 8, none] =
      [some 5, some 5, some 5, some 5, some 8, some 8] := by
  constructor
  · intro t ds hok i hi
    obtain ⟨hds, -, -⟩ := preprocess_ok hok
    subst hds
    rw [filledRows_length] at hi
    constructor
    · rw [filledRows_map_t2m]
      exact fillCol_getElem? _ _ (by rw [List.length_map]; exact hi)
    · rw [filledRows_map_ws]
      exact fillCol_getElem? _ _ (by rw [List.length_map]; exact hi)
  · decide

/-- C1, counterexample to the spec's worked example: the code's
forward-then-backward fill sends `[null, null, 5, null, 8, null]` to
`[5, 5, 5, 5, 8, 8]`, not to the `[5, 5, 5, 8, 8, 8]` the spec claims
(position 3 has a preceding non-null value, 5, so it takes 5, not 8). -/
theorem claim_C1_counterexample :
    (preprocess_data tblSix).map (fun l => l.map (fun r => r.t2m)) =
      .ok [some 5, some 5, some 5, some 5, some 8, some 8] ∧
    fillCol [none, none, some 5, none, some 8, none] ≠
      [some 5, some 5, some 5, some 8, some 8, some 8] := by
  constructor
  · decide
  · decide

/-- Witness for `claim_C1_fill`: its hypotheses hold at the concrete table
`tblFeb2020`, position 0. -/
theorem claim_C1_fill_witness :
    preprocess_data tblFeb2020 = .ok (filledRows tblFeb2020) ∧
    ((filledRows tblFeb2020).map (fun r => r.t2m))[0]? =
      some (fillAt ((sortedRows tblFeb2020).map (fun r => r.t2m)) 0) := by
  refine ⟨by decide, ?_⟩
  exact (claim_C1_fill.1 tblFeb2020 (filledRows tblFeb2020)
    (by decide) 0 (by decide)).1

/-! Claim C3 (stable chronological sort) is not settled here: the
sortedness half holds of any faithful model, but the claim also asserts a
stable tie order, while `df_processed.sort_index()` uses pandas' default
`kind='quicksort'` on the non-monotonic merged index — an algorithm whose
tie order is not guaranteed (and not reproduced by this file's stable sort
kernel).  Refuting the stability clause would require an exact embedding of
numpy's introsort, which is out of scope, so the claim is neither proved
nor refuted. -/

/-! ### Claim C4 — country / date-range filter -/

/-- The two successive filters of `filter_data` collapse to one conjunctive
filter over the input. -/
theorem filter_data_eq (df : List Row) (cs : List String) (s e : Int) :
    filter_data df cs s e =
      df.filter (fun r =>
        cs.contains r.country && (decide (s ≤ r.ts) && decide (r.ts ≤ e))) := by
  unfold filter_data
  rw [List.filter_filter]
  exact List.filter_congr (fun a _ => Bool.and_comm _ _)

/-- C4: `filter_data` returns exactly the records whose country is in the
given set and whose date lies in the inclusive range, in input order, and is
idempotent: filtering the result again with the same countries and the same
or a wider range returns it unchanged. -/
theorem claim_C4_filter :
    (∀ (df : List Row) (cs : List String) (s e : Int) (r : Row),
       r ∈ filter_data df cs s e ↔
         r ∈ df ∧ r.country ∈ cs ∧ s ≤ r.ts ∧ r.ts ≤ e) ∧
    (∀ (df : List Row) (cs : List String) (s e : Int),
       filter_data df cs s e =
         df.filter (fun r =>
           cs.contains r.country && (decide (s ≤ r.ts) && decide (r.ts ≤ e)))) ∧
    (∀ (df : List Row) (cs : List String) (s e s' e' : Int),
       s' ≤ s → e ≤ e' →
         filter_data (filter_data df cs s e) cs s' e' = filter_data df cs s e) := by
  refine ⟨?_, filter_data_eq, ?_⟩
  · intro df cs s e r
    rw [filter_data_eq, List.mem_filter]
    simp only [Bool.and_eq_true, decide_eq_true_eq, List.contains, List.elem_iff]
  · intro df cs s e s' e' hs he
    rw [filter_data_eq, filter_data_eq, List.filter_filter]
    apply List.filter_congr
    intro a _
    cases hP : (cs.contains a.country && (decide (s ≤ a.ts) && decide (a.ts ≤ e))) with
    | false => simp
    | true =>
      simp only [Bool.and_true]
      simp only [Bool.and_eq_true, decide_eq_true_eq] at hP
      simp only [Bool.and_eq_true, decide_eq_true_eq]
      exact ⟨hP.1, by omega, by omega⟩

/-- Witness for `claim_C4_filter`: the idempotence hypotheses hold at a
concrete dataset, country set and pair of nested ranges. -/
theorem claim_C4_filter_witness :
    ((-5 : Int) ≤ 1 ∧ (3 : Int) ≤ 7) ∧
    filter_data (filter_data [tieRowA, tieRowB] [("A")] 1 3) [("A")] (-5) 7 =
      filter_data [tieRowA, tieRowB] [("A")] 1 3 :=
  ⟨⟨by decide, by decide⟩,
   claim_C4_filter.2.2 [tieRowA, tieRowB] [("A")] 1 3 (-5) 7 (by decide) (by decide)⟩

/-! ### Claim C5 — schema and date validation -/

/-- C5 (amended): `preprocess_data` fails if and only if a required column
is absent — in which case the error lists the missing columns — or some
row's (year, month, day) is not a valid calendar date *or* is a valid
calendar date outside the `pd.Timestamp` range 1677-09-22 .. 2262-04-11
(`pd.to_datetime` raises `OutOfBoundsDatetime` there, which the code does
not catch); in particular 2021-02-29 makes it fail, 2020-02-29 succeeds,
and 3000-01-01 fails although it is a valid calendar date.  (Returning
`Except.error` models the exception: no partial output exists.) -/
theorem claim_C5_schema :
    (∀ t : RawTable, missingCols t ≠ [] →
       preprocess_data t = .error (.missingColumns (missingCols t))) ∧
    (∀ t : RawTable, missingCols t = [] →
       (preprocess_data t = .error .invalidDate ↔
         ∃ r ∈ t.rows, dateOk r.year r.mo r.dy = false)) ∧
    (∀ t : RawTable, (∃ er, preprocess_data t = .error er) ↔
       (missingCols t ≠ [] ∨ ∃ r ∈ t.rows, dateOk r.year r.mo r.dy = false)) ∧
    preprocess_data tblFeb2021 = .error .invalidDate ∧
    (∃ ds, preprocess_data tblFeb2020 = .ok ds) ∧
    preprocess_data tblMissing = .error (.missingColumns [("T2M"), ("Country")]) ∧
    preprocess_data tblYear3000 = .error .invalidDate := by
  have hA : ∀ t : RawTable, missingCols t ≠ [] →
      preprocess_data t = .error (.missingColumns (missingCols t)) := by
    intro t h
    unfold preprocess_data
    rw [if_pos h]
  have hB : ∀ t : RawTable, missingCols t = [] →
      (preprocess_data t = .error .invalidDate ↔
        ∃ r ∈ t.rows, dateOk r.year r.mo r.dy = false) := by
    intro t h
    unfold preprocess_data
    rw [if_neg (by simp [h])]
    by_cases hany : t.rows.any (fun r => !(dateOk r.year r.mo r.dy)) = true
    · rw [if_pos hany]
      simp only [List.any_eq_true, Bool.not_eq_true'] at hany
      simpa using hany
    · rw [if_neg hany]
      simp only [Bool.not_eq_true, List.any_eq_false, Bool.not_eq_true'] at hany
      constructor
      · intro h'
        exact absurd h' (by simp)
      · rintro ⟨r, hr, hbad⟩
        exact absurd hbad (by simp [hany r hr])
  refine ⟨hA, hB, ?_, by decide, ⟨filledRows tblFeb2020, by decide⟩, by decide,
    by decide⟩
  intro t
  by_cases hm : missingCols t = []
  · constructor
    · rintro ⟨er, h'⟩
      right
      rw [← hB t hm]
      unfold preprocess_data at h' ⊢
      rw [if_neg (by simp [hm])] at h' ⊢
      by_cases hany : t.rows.any (fun r => !(dateOk r.year r.mo r.dy)) = true
      · rw [if_pos hany]
      · rw [if_neg hany] at h'
        exact absurd h' (by simp)
    · rintro (h' | h')
      · exact absurd hm h'
      · exact ⟨.invalidDate, (hB t hm).mpr h'⟩
  · constructor
    · intro _
      exact Or.inl hm
    · intro _
      exact ⟨.missingColumns (missingCols t), hA t hm⟩

/-- C5, counterexample to the original iff: 3000-01-01 is a valid calendar
date (so, by the claim, a table containing it and no other defect should
preprocess successfully), yet the code fails on it — `pd.to_datetime`
raises `OutOfBoundsDatetime` for dates beyond the nanosecond `Timestamp`
range. -/
theorem claim_C5_counterexample :
    isValidDate 3000 1 1 = true ∧
    missingCols tblYear3000 = [] ∧
    preprocess_data tblYear3000 = .error .invalidDate := by
  refine ⟨by decide, by decide, by decide⟩

/-- Witness for `claim_C5_schema`: the missing-column hypothesis holds at
the concrete table `tblMissing`, which lacks `T2M` and `Country`. -/
theorem claim_C5_schema_witness :
    missingCols tblMissing ≠ [] ∧
    preprocess_data tblMissing = .error (.missingColumns (missingCols tblMissing)) :=
  ⟨by decide, claim_C5_schema.1 tblMissing (by decide)⟩

/-! ### Claim C9 — country display name -/

/-- C9: every row of a successfully loaded table has its country field set
to the display form of the country id (separator characters replaced by
spaces, each word title-cased); `sierra_leone` yields `Sierra Leone`. -/
theorem claim_C9_country :
    (∀ (env : String → CsvSource) (c : String) (t : RawTable),
       load_country_data env c = .ok t →
         ∀ r ∈ t.rows, r.country = displayName c) ∧
    displayName ("sierra_leone") = ("Sierra Leone") := by
  constructor
  · intro env c t hok r hr
    unfold load_country_data at hok
    cases henv : env c with
    | absent => rw [henv] at hok; exact absurd hok (by simp)
    | corrupt => rw [henv] at hok; exact absurd hok (by simp)
    | table t0 =>
      rw [henv] at hok
      injection hok with h
      subst h
      unfold tagCountry at hr
      simp only [List.mem_map] at hr
      obtain ⟨r0, -, hr0⟩ := hr
      rw [← hr0]
  · decide

/-- Witness for `claim_C9_country`: the load hypothesis holds at a concrete
environment with a file for `benin`, and the tagged row carries `Benin`. -/
theorem claim_C9_country_witness :
    load_country_data envTwoOfThree ("benin") =
      .ok (tagCountry ("benin") ⟨allCols, [⟨2020, 1, 1, some 1, some 1, ("x")⟩]⟩) ∧
    (⟨2020, 1, 1, some 1, some 1, ("Benin")⟩ : RawRow).country =
      displayName ("benin") :=
  ⟨by decide,
   claim_C9_country.1 envTwoOfThree ("benin")
     (tagCountry ("benin") ⟨allCols, [⟨2020, 1, 1, some 1, some 1, ("x")⟩]⟩)
     (by decide) _ (by decide)⟩

/-! ### Claim C10 — hyphen normalization of country ids -/

/-- Replacing hyphens by underscores is idempotent. -/
theorem normalizeId_idem (c : String) : normalizeId (normalizeId c) = normalizeId c := by
  unfold normalizeId pyReplaceChar
  show String.mk _ = String.mk _
  congr 1
  rw [List.map_map]
  apply List.map_congr_left
  intro a _
  by_cases h : a = ('-')
  · subst h; decide
  · simp [Function.comp, h]

/-- C10: `load_all_countries` replaces every hyphen in each id by an
underscore before invoking the per-country loader, so hyphenated ids load
the same sources: normalizing the id list first changes nothing, and
`sierra-leone` produces the same result as `sierra_leone` under every
environment. -/
theorem claim_C10_normalize :
    (∀ (env : String → CsvSource) (cs : List String),
       load_all_countries env (cs.map normalizeId) = load_all_countries env cs) ∧
    (∀ env : String → CsvSource,
       load_all_countries env [("sierra-leone")] =
         load_all_countries env [("sierra_leone")]) := by
  constructor
  · intro env cs
    have hload : loadedTables env (cs.map normalizeId) = loadedTables env cs := by
      unfold loadedTables
      rw [List.map_map]
      congr 1
      apply List.map_congr_left
      intro a _
      exact normalizeId_idem a
    unfold load_all_countries
    rw [hload]
  · intro env
    have h : ([("sierra-leone")].map normalizeId) =
        ([("sierra_leone")].map normalizeId) := by decide
    unfold load_all_countries loadedTables
    rw [h]

/-! ### Claim C6 — merge tolerance -/

/-- C6: `load_all_countries` skips every country whose load fails (missing
file or any other read failure), concatenates the successfully loaded tables
preserving row order within each table and the given country order, and
raises exactly when zero countries loaded; with two of three sources present
it returns a non-empty table holding exactly the two present countries. -/
theorem claim_C6_merge :
    (∀ (env : String → CsvSource) (cs : List String),
       (load_all_countries env cs = .error .emptyDataset ↔
         ∀ c ∈ cs.map normalizeId, (load_country_data env c).toOption = none)) ∧
    (∀ (env : String → CsvSource) (cs : List String),
       loadedTables env cs ≠ [] →
         load_all_countries env cs = .ok (concatTables (loadedTables env cs))) ∧
    (∀ (env : String → CsvSource) (cs : List String),
       (concatTables (loadedTables env cs)).rows =
         ((loadedTables env cs).map (fun t => t.rows)).flatten) ∧
    ((load_all_countries envTwoOfThree
        [("benin"), ("sierra_leone"), ("togo")]).map
        (fun t => t.rows.map (fun r => r.country)) =
      .ok [("Benin"), ("Togo")]) ∧
    load_all_countries envEmpty [("benin"), ("sierra_leone"), ("togo")] =
      .error .emptyDataset := by
  refine ⟨?_, ?_, fun env cs => rfl, by decide, by decide⟩
  · intro env cs
    unfold load_all_countries
    by_cases h : (loadedTables env cs).isEmpty = true
    · rw [if_pos h]
      rw [List.isEmpty_eq_true] at h
      unfold loadedTables at h
      rw [List.filterMap_eq_nil_iff] at h
      simpa using h
    · rw [if_neg h]
      rw [List.isEmpty_eq_true] at h
      constructor
      · intro h'
        exact absurd h' (by simp)
      · intro hall
        exact absurd (by unfold loadedTables; rw [List.filterMap_eq_nil_iff]; exact hall) h
  · intro env cs hne
    unfold load_all_countries
    rw [if_neg (by rw [List.isEmpty_eq_true]; exact hne)]

/-- Witness for `claim_C6_merge`: the non-empty hypothesis holds at the
concrete two-of-three environment. -/
theorem claim_C6_merge_witness :
    loadedTables envTwoOfThree [("benin"), ("sierra_leone"), ("togo")] ≠ [] ∧
    load_all_countries envTwoOfThree [("benin"), ("sierra_leone"), ("togo")] =
      .ok (concatTables
        (loadedTables envTwoOfThree [("benin"), ("sierra_leone"), ("togo")])) :=
  ⟨by decide,
   claim_C6_merge.2.1 envTwoOfThree [("benin"), ("sierra_leone"), ("togo")]
     (by decide)⟩

/-! ### Claim C7 — per-country summary statistics -/

/-- C7: `calculate_summary_stats` groups records by country; each output row
is the rounded mean, median, min, max and sample (N-1) standard deviation of
that country's non-missing metric values; the group keys are exactly the
countries of the dataset (sorted, deduplicated); and a single-country
dataset with metric values [1,2,3,4,5] summarizes to mean 3.00, median 3.00,
min 1.00, max 5.00, std 1.58. -/
theorem claim_C7_summary :
    (∀ (df : List Row) (m : Metric) (c : String) (s : SummaryRow),
       (c, s) ∈ calculate_summary_stats df m →
         s = statsOfVals (groupVals df m c)) ∧
    (∀ (df : List Row) (m : Metric),
       (calculate_summary_stats df m).map Prod.fst =
         sortByKey id (dedupFirst (df.map (fun r => r.country)))) ∧
    (∀ (c : String) (m : Metric) (r1 r2 r3 r4 r5 : Row),
       r1.country = c → r2.country = c → r3.country = c → r4.country = c →
       r5.country = c →
       mval m r1 = some 1 → mval m r2 = some 2 → mval m r3 = some 3 →
       mval m r4 = some 4 → mval m r5 = some 5 →
       calculate_summary_stats [r1, r2, r3, r4, r5] m =
         [(c, ⟨some 3, some 3, some 1, some 5, some (158 / 100)⟩)]) := by
  refine ⟨?_, ?_, ?_⟩
  · intro df m c s hmem
    unfold calculate_summary_stats at hmem
    simp only [List.mem_map, Prod.mk.injEq] at hmem
    obtain ⟨c', -, hc, hs⟩ := hmem
    rw [← hs, ← hc]
  · intro df m
    unfold calculate_summary_stats
    rw [List.map_map]
    exact List.map_id'' (fun x => rfl) _
  · intro c m r1 r2 r3 r4 r5 h1 h2 h3 h4 h5 hm1 hm2 hm3 hm4 hm5
    have hmap : [r1, r2, r3, r4, r5].map (fun r => r.country) = [c, c, c, c, c] := by
      simp [h1, h2, h3, h4, h5]
    have hdedup : dedupFirst [c, c, c, c, c] = [c] := by
      simp [dedupFirst, List.contains, List.elem]
    have hgroup : groupVals [r1, r2, r3, r4, r5] m c = [1, 2, 3, 4, 5] := by
      unfold groupVals
      simp [List.filter, h1, h2, h3, h4, h5, List.filterMap,
        hm1, hm2, hm3, hm4, hm5]
    unfold calculate_summary_stats
    rw [hmap, hdedup]
    show [(c, statsOfVals (groupVals [r1, r2, r3, r4, r5] m c))] = _
    rw [hgroup]
    have hstats : statsOfVals [1, 2, 3, 4, 5] =
        ⟨some 3, some 3, some 1, some 5, some (158 / 100)⟩ := by
      with_unfolding_all decide
    rw [hstats]

/-- Witness for `claim_C7_summary`: its hypotheses hold at five concrete
single-country rows carrying T2M values 1..5. -/
theorem claim_C7_summary_witness :
    calculate_summary_stats
      [⟨1, 2020, 1, 1, some 1, none, ("Benin")⟩,
       ⟨2, 2020, 1, 2, some 2, none, ("Benin")⟩,
       ⟨3, 2020, 1, 3, some 3, none, ("Benin")⟩,
       ⟨4, 2020, 1, 4, some 4, none, ("Benin")⟩,
       ⟨5, 2020, 1, 5, some 5, none, ("Benin")⟩] Metric.t2m =
      [(("Benin"), ⟨some 3, some 3, some 1, some 5, some (158 / 100)⟩)] :=
  claim_C7_summary.2.2 ("Benin") Metric.t2m _ _ _ _ _
    rfl rfl rfl rfl rfl rfl rfl rfl rfl rfl

/-! ### Claim C2 — top-N extremes -/

/-- C2 (amended): for a dataset whose metric values are all present,
`get_top_n_records` returns, for `n ≥ 0`, `min n |D|` records: the first
`n` of the value-sorted permutation of the dataset — descending for
`ascending=false`, ascending for `ascending=true` — and in both directions
records with equal metric value retain their relative dataset order
(`nargsort` reverses before the ascending argsort and reverses the indexer
after it, so the reversals cancel on blocks of equal values).  For `n < 0`
the result is not the empty sequence but the sorted sequence minus its last
`|n|` records (pandas `head` slicing). -/
theorem claim_C2_topn :
    ∀ (df : List Row) (m : Metric),
      (∀ r ∈ df, (mval m r).isSome) →
      (∀ n : Int, 0 ≤ n → ∀ asc : Bool,
         (get_top_n_records df m n asc).length = min n.toNat df.length) ∧
      (∀ asc : Bool, (sortValues df m asc).Perm df) ∧
      List.Sorted (fun a b => valOf m a ≤ valOf m b) (sortValues df m true) ∧
      List.Sorted (fun a b => valOf m b ≤ valOf m a) (sortValues df m false) ∧
      (∀ v : ℚ, (sortValues df m true).filter (fun r => decide (valOf m r = v)) =
         df.filter (fun r => decide (valOf m r = v))) ∧
      (∀ v : ℚ, (sortValues df m false).filter (fun r => decide (valOf m r = v)) =
         df.filter (fun r => decide (valOf m r = v))) ∧
      (∀ (n : Int) (asc : Bool), get_top_n_records df m n asc =
         ((sortValues df m asc).take
            (if 0 ≤ n then n.toNat else df.length - (-n).toNat)).map
           (fun r => ⟨r.ts, r.country, mval m r⟩)) := by
  intro df m hall
  have hnn : df.filter (fun r => (mval m r).isSome) = df :=
    List.filter_eq_self.mpr hall
  have hna : df.filter (fun r => (mval m r).isNone) = [] := by
    rw [List.filter_eq_nil_iff]
    intro a ha
    have h := hall a ha
    cases hml : mval m a with
    | some v => simp [Option.isNone, hml]
    | none => rw [hml] at h; exact absurd h (by simp)
  have hSV : ∀ asc : Bool, sortValues df m asc =
      (if asc then sortByKey (valOf m) df
       else (sortByKey (valOf m) df.reverse).reverse) := by
    intro asc
    unfold sortValues
    rw [hnn, hna, List.append_nil]
  have hperm : ∀ asc : Bool, (sortValues df m asc).Perm df := by
    intro asc
    rw [hSV]
    cases asc with
    | true => simpa using perm_sortByKey (valOf m) df
    | false =>
      simp only [Bool.false_eq_true, if_false]
      exact ((List.reverse_perm _).trans
        (perm_sortByKey (valOf m) df.reverse)).trans (List.reverse_perm df)
  have hlen : ∀ asc : Bool, (sortValues df m asc).length = df.length :=
    fun asc => (hperm asc).length_eq
  refine ⟨?_, hperm, ?_, ?_, ?_, ?_, ?_⟩
  · intro n hn asc
    unfold get_top_n_records pyHead
    rw [if_pos hn]
    simp [List.length_take, hlen asc]
  · rw [hSV true]
    simpa using sorted_sortByKey (valOf m) df
  · rw [hSV false]
    simp only [Bool.false_eq_true, if_false]
    show List.Pairwise _ _
    rw [List.pairwise_reverse]
    exact sorted_sortByKey (valOf m) df.reverse
  · intro v
    rw [hSV true]
    simpa using filterEq_sortByKey (valOf m) v df
  · intro v
    rw [hSV false]
    simp only [Bool.false_eq_true, if_false]
    rw [List.filter_reverse, filterEq_sortByKey (valOf m) v df.reverse,
      List.filter_reverse, List.reverse_reverse]
  · intro n asc
    unfold get_top_n_records pyHead
    by_cases h0 : 0 ≤ n
    · rw [if_pos h0, if_pos h0]
    · rw [if_neg h0, if_neg h0, hlen asc]

/-- C2, counterexample: on the two-row dataset `[tieRowA, tieRowB]`,
`get_top_n_records` with `n = -1` returns a non-empty sequence — pandas
`head(-1)` is the slice `df[:-1]`, dropping only the last row — refuting
the claim that every `n ≤ 0` yields the empty sequence. -/
theorem claim_C2_counterexample :
    get_top_n_records [tieRowA, tieRowB] Metric.t2m (-1) false =
      [⟨1, ("A"), some 1⟩] ∧
    get_top_n_records [tieRowA, tieRowB] Metric.t2m (-1) false ≠ [] := by
  constructor
  · decide
  · decide

/-- Witness for `claim_C2_topn`: its hypothesis holds at the concrete
two-row dataset with all metric values present. -/
theorem claim_C2_topn_witness :
    ([tieRowA, tieRowB].all (fun r => (mval Metric.t2m r).isSome)) = true ∧
    (get_top_n_records [tieRowA, tieRowB] Metric.t2m 2 false).length =
      min (Int.toNat 2) [tieRowA, tieRowB].length :=
  ⟨by decide,
   (claim_C2_topn [tieRowA, tieRowB] Metric.t2m (by decide)).1 2 (by decide) false⟩

/-! ### Claim C8 — no mutation of the base dataset -/

/-- C8: in the store-passing translation, `preprocess_data` and
`filter_data` leave every pre-existing heap cell — in particular the input
frame — unchanged, and return a freshly allocated derived frame (its index
lies beyond the original heap); the cell returned by preprocessing holds
exactly the pure `preprocess_data` output. -/
theorem claim_C8_frame :
    (∀ (h : List Cell) (i : Nat) (t : RawTable) (h' : List Cell) (j : Nat),
       h[i]? = some (.rawC t) → preprocessH h i = .ok (h', j) →
         (∀ k, k < h.length → h'[k]? = h[k]?) ∧ h.length ≤ j ∧
         (∀ ds, preprocess_data t = .ok ds → h'[j]? = some (.procC ds))) ∧
    (∀ (h : List Cell) (i : Nat) (d : List Row) (cs : List String) (s e : Int),
       h[i]? = some (.procC d) →
         (∀ k, k < h.length → (filterH h i cs s e).1[k]? = h[k]?) ∧
         h.length ≤ (filterH h i cs s e).2) := by
  constructor
  · intro h i t h' j hi hres
    have hgd : h.getD i (.rawC ⟨[], []⟩) = .rawC t := by
      rw [List.getD_eq_getElem?_getD, hi]
      rfl
    unfold preprocessH at hres
    rw [hgd] at hres
    dsimp only at hres
    by_cases hm : missingCols t ≠ []
    · rw [if_pos hm] at hres
      exact absurd hres (by simp)
    · rw [if_neg hm] at hres
      by_cases hany : t.rows.any (fun r => !(dateOk r.year r.mo r.dy)) = true
      · rw [if_pos hany] at hres
        exact absurd hres (by simp)
      · rw [if_neg hany] at hres
        injection hres with hpair
        injection hpair with hh hj
        subst hh
        subst hj
        refine ⟨?_, by simp, ?_⟩
        · intro k hk
          rw [List.getElem?_set_ne (by simp; omega),
            List.getElem?_set_ne (by simp; omega),
            List.getElem?_append_left (by simp; omega),
            List.getElem?_append_left (by simp; omega),
            List.getElem?_set_ne (by omega),
            List.getElem?_append_left hk]
        · intro ds hds
          obtain ⟨hds', -, -⟩ := preprocess_ok hds
          subst hds'
          rw [List.getElem?_set_eq_of_lt _ (by simp)]
          rfl
  · intro h i d cs s e hi
    have hgd : h.getD i (.rawC ⟨[], []⟩) = .procC d := by
      rw [List.getD_eq_getElem?_getD, hi]
      rfl
    unfold filterH
    rw [hgd]
    dsimp only
    refine ⟨?_, by simp⟩
    intro k hk
    rw [List.getElem?_append_left (by simp; omega),
      List.getElem?_append_left hk]

/-- Witness for `claim_C8_frame`: at the singleton heap holding the raw
table `tblFeb2020`, preprocessing allocates three new cells and leaves
cell 0 untouched. -/
theorem claim_C8_frame_witness :
    preprocessH [Cell.rawC tblFeb2020] 0 =
      .ok ([Cell.rawC tblFeb2020,
            Cell.rawTsC tblFeb2020 [20200229],
            Cell.procC (stampedRows tblFeb2020),
            Cell.procC (filledRows tblFeb2020)], 3) ∧
    [Cell.rawC tblFeb2020,
     Cell.rawTsC tblFeb2020 [20200229],
     Cell.procC (stampedRows tblFeb2020),
     Cell.procC (filledRows tblFeb2020)][0]? = [Cell.rawC tblFeb2020][0]? :=
  ⟨by decide,
   (claim_C8_frame.1 [Cell.rawC tblFeb2020] 0 tblFeb2020
     [Cell.rawC tblFeb2020,
      Cell.rawTsC tblFeb2020 [20200229],
      Cell.procC (stampedRows tblFeb2020),
      Cell.procC (filledRows tblFeb2020)] 3
     (by decide) (by decide)).1 0 (by decide)⟩

end Solar
